import Mathlib

set_option autoImplicit false

/-
Verification of the FluxMedia core: the plugin pipeline (PluginManager,
src/packages/core/src/plugin.ts) and the orchestrator (MediaUploader,
src/packages/core/src/media-uploader.ts).

Modelling conventions:
- A JavaScript async call either resolves with a value or rejects with a
  thrown value; this is `Except Thrown a`.
- A thrown value is either an Error instance (message plus the optional
  MediaError `code` field) or an arbitrary non-Error value, represented by
  its `String(...)` rendering.
- The file, options, upload-result and search-query types are abstract
  type parameters F, O, R, Q.
- Hook executions and provider calls are recorded in an event trace.
  Execution is sequential (single-threaded cooperative scheduling): an
  event earlier in a trace finished before the next one began.
- The plugin registry is a JavaScript Map: an insertion-ordered
  association list with unique keys, where setting an existing key
  replaces the value in place.
- The optional plugin lifecycle methods `init`/`destroy` have no
  observable effect other than being called, so they are modelled by
  presence flags (`hasInit`/`hasDestroy`) plus their trace events.
-/

namespace FluxMedia

/-- A JavaScript Error object: its message, plus the optional `code`
field a MediaError would carry (absent on a plain Error). -/
structure JSError where
  message : String
  code : Option String
  deriving Repr, DecidableEq

/-- A JavaScript thrown value: an Error instance, or any other value
(represented by its String form). -/
inductive Thrown where
  | err (e : JSError)
  | other (stringForm : String)
  deriving Repr, DecidableEq

/-- Outcome of awaiting a JS async call: resolved value or thrown value. -/
abbrev JSResult (a : Type) := Except Thrown a

/-- Embeds the normalization in media-uploader.ts line 119:
`error instanceof Error ? error : new Error(String(error))`. -/
def toJSError : Thrown → JSError
  | .err e => e
  | .other s => { message := s, code := none }

/-- Plugin lifecycle hooks (plugin.ts, interface PluginHooks).  Each hook
is optional; a present hook is a fallible async function.  `beforeUpload`
may resolve with a replacement pair or with nothing (void); `beforeDelete`
may resolve with a replacement id or nothing. -/
structure PluginHooks (F O R : Type) where
  beforeUpload : Option (F → O → JSResult (Option (F × O))) := none
  afterUpload : Option (R → JSResult R) := none
  onError : Option (JSError → F → O → JSResult Unit) := none
  beforeDelete : Option (String → JSResult (Option String)) := none
  afterDelete : Option (String → JSResult Unit) := none

/-- A plugin (plugin.ts, interface FluxMediaPlugin): unique name, optional
version, hook bundle, and the optional `init`/`destroy` lifecycle methods
modelled as presence flags. -/
structure FluxMediaPlugin (F O R : Type) where
  name : String
  version : Option String := none
  hooks : PluginHooks F O R
  hasInit : Bool := false
  hasDestroy : Bool := false

/-- Observable events, in execution order: one event per hook invocation
or provider call. -/
inductive Event (F O R : Type) where
  | beforeUploadHook (plugin : String) (file : F) (options : O)
  | afterUploadHook (plugin : String) (result : R)
  | onErrorHook (plugin : String) (error : JSError) (file : F) (options : O)
  | beforeDeleteHook (plugin : String) (id : String)
  | afterDeleteHook (plugin : String) (id : String)
  | initHook (plugin : String)
  | destroyHook (plugin : String)
  | providerUpload (file : F) (options : O)
  | providerUploadMultiple (files : List F) (options : O)
  | providerDelete (id : String)
  deriving DecidableEq

/-- The plugin name of a beforeUpload-hook event, if the event is one. -/
def buName {F O R : Type} : Event F O R → Option String
  | .beforeUploadHook n _ _ => some n
  | _ => none

/-- Whether an event is a call of the provider's batch upload method. -/
def isProviderUploadMultiple {F O R : Type} : Event F O R → Bool
  | .providerUploadMultiple _ _ => true
  | _ => false

/-- JS Map lookup (`Map.get`), over the insertion-ordered entry list. -/
def mapGet {a : Type} : List (String × a) → String → Option a
  | [], _ => none
  | (k, v) :: rest, key => if k = key then some v else mapGet rest key

/-- JS Map update (`Map.set`): replaces the value in place when the key is
present (keeping the key's original position), else appends a new entry. -/
def mapSet {a : Type} : List (String × a) → String → a → List (String × a)
  | [], key, value => [(key, value)]
  | (k, v) :: rest, key, value =>
    if k = key then (k, value) :: rest else (k, v) :: mapSet rest key value

/-- JS Map deletion (`Map.delete`), dropping the entry with the key. -/
def mapDelete {a : Type} : List (String × a) → String → List (String × a)
  | [], _ => []
  | (k, v) :: rest, key => if k = key then rest else (k, v) :: mapDelete rest key

/-- PluginManager state (plugin.ts lines 85-101): the name-to-plugin Map,
the derived ordered execution list, and the dirty flag. -/
structure PluginManager (F O R : Type) where
  pluginCache : List (String × FluxMediaPlugin F O R)
  orderedPlugins : List (FluxMediaPlugin F O R)
  cacheInvalid : Bool

/-- A freshly constructed PluginManager: empty Map, empty list, clean. -/
def PluginManager.empty (F O R : Type) : PluginManager F O R :=
  { pluginCache := [], orderedPlugins := [], cacheInvalid := false }

/-- plugin.ts lines 323-328: rebuild the ordered list from the Map's
current value order when the dirty flag is set. -/
def PluginManager.rebuildCacheIfNeeded {F O R : Type} (st : PluginManager F O R) :
    PluginManager F O R :=
  if st.cacheInvalid then
    { st with orderedPlugins := st.pluginCache.map Prod.snd, cacheInvalid := false }
  else st

/-- plugin.ts lines 110-128, `register`: await the displaced plugin's
destroy (when overriding), install into the Map, mark dirty, await the new
plugin's init.  Returns the emitted lifecycle events and the new state. -/
def PluginManager.register {F O R : Type} (st : PluginManager F O R)
    (p : FluxMediaPlugin F O R) : List (Event F O R) × PluginManager F O R :=
  let destroyEvents : List (Event F O R) :=
    match mapGet st.pluginCache p.name with
    | some q => if q.hasDestroy then [.destroyHook q.name] else []
    | none => []
  let initEvents : List (Event F O R) := if p.hasInit then [.initHook p.name] else []
  (destroyEvents ++ initEvents,
   { pluginCache := mapSet st.pluginCache p.name p,
     orderedPlugins := st.orderedPlugins,
     cacheInvalid := true })

/-- plugin.ts lines 136-141, `registerAll`: sequential registration. -/
def PluginManager.registerAll {F O R : Type} (st : PluginManager F O R) :
    List (FluxMediaPlugin F O R) → List (Event F O R) × PluginManager F O R
  | [] => ([], st)
  | p :: ps =>
    let r1 := st.register p
    let r2 := r1.2.registerAll ps
    (r1.1 ++ r2.1, r2.2)

/-- plugin.ts line 171, `get`. -/
def PluginManager.get {F O R : Type} (st : PluginManager F O R) (name : String) :
    Option (FluxMediaPlugin F O R) :=
  mapGet st.pluginCache name

/-- plugin.ts line 186, the `size` accessor (`Map.size`). -/
def PluginManager.size {F O R : Type} (st : PluginManager F O R) : Nat :=
  st.pluginCache.length

/-- plugin.ts lines 178-181, `getAll`: rebuild if needed, then a copy of
the ordered execution list. -/
def PluginManager.getAll {F O R : Type} (st : PluginManager F O R) :
    List (FluxMediaPlugin F O R) :=
  st.rebuildCacheIfNeeded.orderedPlugins

/-- Iteration core of plugin.ts lines 207-227 (`runBeforeUpload`): thread
the (file, options) accumulator through each plugin's beforeUpload hook; a
truthy result (any object) replaces the accumulator, a void result keeps
it; a hook rejection aborts the loop. -/
def runBeforeUploadList {F O R : Type} :
    List (FluxMediaPlugin F O R) → F → O → List (Event F O R) × JSResult (F × O)
  | [], file, options => ([], .ok (file, options))
  | p :: ps, file, options =>
    match p.hooks.beforeUpload with
    | none => runBeforeUploadList ps file options
    | some h =>
      match h file options with
      | .error t => ([.beforeUploadHook p.name file options], .error t)
      | .ok none =>
        let r := runBeforeUploadList ps file options
        (.beforeUploadHook p.name file options :: r.1, r.2)
      | .ok (some pair) =>
        let r := runBeforeUploadList ps pair.1 pair.2
        (.beforeUploadHook p.name file options :: r.1, r.2)

/-- Iteration core of plugin.ts lines 232-244 (`runAfterUpload`): thread
the result through each plugin's afterUpload hook. -/
def runAfterUploadList {F O R : Type} :
    List (FluxMediaPlugin F O R) → R → List (Event F O R) × JSResult R
  | [], result => ([], .ok result)
  | p :: ps, result =>
    match p.hooks.afterUpload with
    | none => runAfterUploadList ps result
    | some h =>
      match h result with
      | .error t => ([.afterUploadHook p.name result], .error t)
      | .ok r2 =>
        let r := runAfterUploadList ps r2
        (.afterUploadHook p.name result :: r.1, r.2)

/-- Iteration core of plugin.ts lines 249-260 (`runOnError`): fan-out of
the same (error, context) to each plugin's onError hook; return values are
ignored; a rejecting handler aborts the loop and propagates. -/
def runOnErrorList {F O R : Type} :
    List (FluxMediaPlugin F O R) → JSError → F → O → List (Event F O R) × JSResult Unit
  | [], _, _, _ => ([], .ok ())
  | p :: ps, e, file, options =>
    match p.hooks.onError with
    | none => runOnErrorList ps e file options
    | some h =>
      match h e file options with
      | .error t => ([.onErrorHook p.name e file options], .error t)
      | .ok _ =>
        let r := runOnErrorList ps e file options
        (.onErrorHook p.name e file options :: r.1, r.2)

/-- JS truthiness of a `string | undefined` value: `undefined` and the
empty string are falsy. -/
def jsTruthy : Option String → Bool
  | none => false
  | some s => s != ""

/-- Iteration core of plugin.ts lines 265-280 (`runBeforeDelete`): thread
the id through each plugin's beforeDelete hook; the hook's result is
assigned only when truthy (`if (result)`), so void and the empty string
both keep the previous id. -/
def runBeforeDeleteList {F O R : Type} :
    List (FluxMediaPlugin F O R) → String → List (Event F O R) × JSResult String
  | [], id => ([], .ok id)
  | p :: ps, id =>
    match p.hooks.beforeDelete with
    | none => runBeforeDeleteList ps id
    | some h =>
      match h id with
      | .error t => ([.beforeDeleteHook p.name id], .error t)
      | .ok res =>
        let newId := if jsTruthy res then res.getD id else id
        let r := runBeforeDeleteList ps newId
        (.beforeDeleteHook p.name id :: r.1, r.2)

/-- Iteration core of plugin.ts lines 285-293 (`runAfterDelete`): fan-out
of the id to each plugin's afterDelete hook. -/
def runAfterDeleteList {F O R : Type} :
    List (FluxMediaPlugin F O R) → String → List (Event F O R) × JSResult Unit
  | [], _ => ([], .ok ())
  | p :: ps, id =>
    match p.hooks.afterDelete with
    | none => runAfterDeleteList ps id
    | some h =>
      match h id with
      | .error t => ([.afterDeleteHook p.name id], .error t)
      | .ok _ =>
        let r := runAfterDeleteList ps id
        (.afterDeleteHook p.name id :: r.1, r.2)

/-- plugin.ts `runBeforeUpload`: rebuild the ordered list, then iterate. -/
def PluginManager.runBeforeUpload {F O R : Type} (st : PluginManager F O R)
    (file : F) (options : O) : List (Event F O R) × JSResult (F × O) :=
  runBeforeUploadList st.rebuildCacheIfNeeded.orderedPlugins file options

/-- plugin.ts `runAfterUpload`: rebuild the ordered list, then iterate. -/
def PluginManager.runAfterUpload {F O R : Type} (st : PluginManager F O R)
    (result : R) : List (Event F O R) × JSResult R :=
  runAfterUploadList st.rebuildCacheIfNeeded.orderedPlugins result

/-- plugin.ts `runOnError`: rebuild the ordered list, then iterate. -/
def PluginManager.runOnError {F O R : Type} (st : PluginManager F O R)
    (e : JSError) (file : F) (options : O) : List (Event F O R) × JSResult Unit :=
  runOnErrorList st.rebuildCacheIfNeeded.orderedPlugins e file options

/-- plugin.ts `runBeforeDelete`: rebuild the ordered list, then iterate. -/
def PluginManager.runBeforeDelete {F O R : Type} (st : PluginManager F O R)
    (id : String) : List (Event F O R) × JSResult String :=
  runBeforeDeleteList st.rebuildCacheIfNeeded.orderedPlugins id

/-- plugin.ts `runAfterDelete`: rebuild the ordered list, then iterate. -/
def PluginManager.runAfterDelete {F O R : Type} (st : PluginManager F O R)
    (id : String) : List (Event F O R) × JSResult Unit :=
  runAfterDeleteList st.rebuildCacheIfNeeded.orderedPlugins id

/-- A value in a provider's feature matrix (types.ts, ProviderFeatures):
nested groups of boolean flags plus numeric and format-list leaves, walked
generically by MediaUploader.supports. -/
inductive FeatureValue where
  | flag (b : Bool)
  | num (n : Int)
  | formats (l : List String)
  | group (fields : List (String × FeatureValue))

/-- Whether a feature-matrix value is the boolean `true`
(the `current === true` check). -/
def FeatureValue.isTrue : FeatureValue → Bool
  | .flag b => b
  | _ => false

/-- Provider capability contract (types.ts, MediaProvider), with the
members the core orchestrator uses.  `search` is an optional method. -/
structure MediaProvider (F O R Q : Type) where
  name : String
  features : FeatureValue
  upload : F → O → JSResult R
  delete : String → JSResult Unit
  uploadMultiple : List F → O → JSResult (List R)
  search : Option (Q → JSResult (List R)) := none

/-- The MediaUploader (media-uploader.ts): one provider instance composed
with one plugin manager. -/
structure MediaUploader (F O R Q : Type) where
  provider : MediaProvider F O R Q
  plugins : PluginManager F O R

/-- media-uploader.ts lines 103-124, `upload`: run the beforeUpload chain,
call the provider with the effective pair, run the afterUpload chain; any
rejection inside the try block (provider or afterUpload hook) triggers the
onError fan-out with the effective context, after which the caught thrown
value is re-raised — unless the fan-out itself rejects, in which case that
rejection propagates out of the catch block instead. -/
def MediaUploader.upload {F O R Q : Type} (u : MediaUploader F O R Q)
    (file : F) (options : O) : List (Event F O R) × JSResult R :=
  match u.plugins.runBeforeUpload file options with
  | (evs1, .error t) => (evs1, .error t)
  | (evs1, .ok (f2, o2)) =>
    match u.provider.upload f2 o2 with
    | .ok r0 =>
      match u.plugins.runAfterUpload r0 with
      | (evs2, .ok r) => (evs1 ++ .providerUpload f2 o2 :: evs2, .ok r)
      | (evs2, .error e) =>
        let r3 := u.plugins.runOnError (toJSError e) f2 o2
        (evs1 ++ .providerUpload f2 o2 :: (evs2 ++ r3.1),
         match r3.2 with | .ok _ => .error e | .error t2 => .error t2)
    | .error e =>
      let r3 := u.plugins.runOnError (toJSError e) f2 o2
      (evs1 ++ .providerUpload f2 o2 :: r3.1,
       match r3.2 with | .ok _ => .error e | .error t2 => .error t2)

/-- media-uploader.ts lines 191-201, `uploadMultiple`: a for-of loop that
awaits the single-item `upload` for each file in order, collecting the
results; a rejected upload propagates immediately. -/
def MediaUploader.uploadMultiple {F O R Q : Type} (u : MediaUploader F O R Q) :
    List F → O → List (Event F O R) × JSResult (List R)
  | [], _ => ([], .ok [])
  | f :: fs, options =>
    match u.upload f options with
    | (evs, .error t) => (evs, .error t)
    | (evs, .ok r) =>
      match u.uploadMultiple fs options with
      | (evs2, .ok rest) => (evs ++ evs2, .ok (r :: rest))
      | (evs2, .error t) => (evs ++ evs2, .error t)

/-- media-uploader.ts lines 134-142, `delete`: beforeDelete chain, then
the provider call with the processed id, then the afterDelete fan-out. -/
def MediaUploader.deleteOp {F O R Q : Type} (u : MediaUploader F O R Q)
    (id : String) : List (Event F O R) × JSResult Unit :=
  match u.plugins.runBeforeDelete id with
  | (evs1, .error t) => (evs1, .error t)
  | (evs1, .ok pid) =>
    match u.provider.delete pid with
    | .error t => (evs1 ++ [.providerDelete pid], .error t)
    | .ok _ =>
      let r := u.plugins.runAfterDelete pid
      (evs1 ++ .providerDelete pid :: r.1, r.2)

/-- media-uploader.ts lines 224-229, `search`: if the provider has no
search method, throw `new Error` with the message naming the provider
(a plain Error, so its MediaError code field is absent); otherwise a
passthrough to the provider's search. -/
def MediaUploader.search {F O R Q : Type} (u : MediaUploader F O R Q)
    (query : Q) : JSResult (List R) :=
  match u.provider.search with
  | none =>
    .error (.err { message := "Search is not supported by " ++ u.provider.name ++ " provider",
                   code := none })
  | some s => s query

/-- media-uploader.ts lines 237-250, `supports` loop body: walk the
feature matrix by the dotted-path segments, descending only while the
current value is an object containing the segment, returning false
otherwise; at the end compare the reached value with the boolean true. -/
def supportsWalk : FeatureValue → List String → Bool
  | cur, [] => cur.isTrue
  | cur, part :: rest =>
    match cur with
    | .group fields =>
      match mapGet fields part with
      | some v => supportsWalk v rest
      | none => false
    | _ => false

/-- media-uploader.ts lines 237-250, `supports`: split the feature path at
the dots and walk the provider's feature matrix. -/
def MediaUploader.supports {F O R Q : Type} (u : MediaUploader F O R Q)
    (feature : String) : Bool :=
  supportsWalk u.provider.features (feature.splitOn ".")

/-- Spec-side resolver for C8: resolve a segment path in the feature
matrix, `none` when some segment is missing or hits a non-group value. -/
def resolvePath : FeatureValue → List String → Option FeatureValue
  | cur, [] => some cur
  | .group fields, part :: rest =>
    match mapGet fields part with
    | some v => resolvePath v rest
    | none => none
  | _, _ :: _ => none

/-- Spec-side fold for C2 (spec section 4.2): the left-to-right fold over
the plugin list threading the accumulated (file, options) pair, where a
hook's replacement pair becomes the new accumulator and a void result
keeps it. -/
def beforeUploadFold {F O R : Type} (ps : List (FluxMediaPlugin F O R))
    (file : F) (options : O) : JSResult (F × O) :=
  ps.foldlM (fun acc p =>
    match p.hooks.beforeUpload with
    | none => Except.ok acc
    | some h =>
      match h acc.1 acc.2 with
      | .error t => Except.error t
      | .ok none => Except.ok acc
      | .ok (some pair) => Except.ok pair) (file, options)

/-- The complete onError fan-out trace over a plugin list: one event per
plugin that has an onError hook, in list order, all with the same error
and context. -/
def onErrorFanOut {F O R : Type} (ps : List (FluxMediaPlugin F O R))
    (e : JSError) (file : F) (options : O) : List (Event F O R) :=
  (ps.filter fun p => p.hooks.onError.isSome).map
    fun p => .onErrorHook p.name e file options

/-- Number of beforeUpload-hook invocations of the named plugin in a
trace. -/
def countBeforeUpload {F O R : Type} (evs : List (Event F O R)) (name : String) : Nat :=
  (evs.filterMap buName).count name

/-- Modelled from the spec: the closed MediaErrorCode enumeration of
section 7 (errors.ts is exported by the core package index but its source
is not part of this snapshot; the member names are those listed in the
spec and exercised by the provider tests). -/
def mediaErrorCodes : List String :=
  ["INVALID_CONFIG", "INVALID_CREDENTIALS", "QUOTA_EXCEEDED", "NETWORK_ERROR",
   "FILE_TOO_LARGE", "INVALID_FILE_TYPE", "FILE_NOT_FOUND", "UPLOAD_FAILED",
   "DELETE_FAILED", "RATE_LIMITED"]

/-- Hook bundle with no hooks present, for building concrete plugins. -/
def hooksNone : PluginHooks String String String := {}

/-- Concrete plugin whose beforeUpload replaces the (file, options) pair. -/
def wRename : FluxMediaPlugin String String String :=
  { name := "rename",
    hooks := { hooksNone with
      beforeUpload := some fun f o => .ok (some (f ++ ".webp", o ++ ";renamed")) } }

/-- Concrete plugin with a pass-through beforeUpload (void result) and a
succeeding onError handler. -/
def wObserve : FluxMediaPlugin String String String :=
  { name := "observe",
    hooks := { hooksNone with
      beforeUpload := some fun _ _ => .ok none,
      onError := some fun _ _ _ => .ok () } }

/-- Concrete plugin being displaced in the C3 witness: has a destroy
method. -/
def wOldPlugin : FluxMediaPlugin String String String :=
  { name := "dup", version := some "1.0", hooks := hooksNone, hasDestroy := true }

/-- Concrete replacement plugin in the C3 witness: has an init method. -/
def wNewPlugin : FluxMediaPlugin String String String :=
  { name := "dup", version := some "2.0", hooks := hooksNone, hasInit := true }

/-- Replacement plugin carrying the already-used name "rename", for the
override-slot witness. -/
def wRename2 : FluxMediaPlugin String String String :=
  { name := "rename", version := some "2.0",
    hooks := { hooksNone with beforeUpload := some fun f o => .ok (some (f ++ ".avif", o)) } }

/-- Registry that already holds wOldPlugin under the name "dup". -/
def wC3St : PluginManager String String String :=
  ((PluginManager.empty String String String).register wOldPlugin).2

/-- Concrete plugin whose onError handler itself rejects. -/
def wCrashFirst : FluxMediaPlugin String String String :=
  { name := "crash-first",
    hooks := { hooksNone with
      onError := some fun _ _ _ => .error (.err { message := "handler exploded", code := none }) } }

/-- Concrete plugin with a succeeding onError handler, registered after a
rejecting one. -/
def wNeverSeen : FluxMediaPlugin String String String :=
  { name := "never-seen",
    hooks := { hooksNone with onError := some fun _ _ _ => .ok () } }

/-- Concrete plugin whose onError handler rejects, used to exhibit
masking of the provider error. -/
def wMasker : FluxMediaPlugin String String String :=
  { name := "masker",
    hooks := { hooksNone with
      onError := some fun _ _ _ => .error (.err { message := "secondary failure", code := none }) } }

/-- Concrete plugin with a beforeDelete hook resolving with the empty
string. -/
def wEmptyRewriter : FluxMediaPlugin String String String :=
  { name := "empty-rewriter",
    hooks := { hooksNone with beforeDelete := some fun _ => .ok (some "") } }

/-- Concrete plugin with a beforeDelete hook resolving with a replacement
id. -/
def wPrefixer : FluxMediaPlugin String String String :=
  { name := "id-tagger",
    hooks := { hooksNone with beforeDelete := some fun i => .ok (some ("v2/" ++ i)) } }

/-- A tiny concrete feature matrix matching the mock provider of the
testing module. -/
def wFeatures : FeatureValue :=
  .group
    [("transformations", .group [("resize", .flag true), ("blur", .flag false)]),
     ("storage", .group [("maxFileSize", .num 10485760),
                         ("supportedFormats", .formats ["jpg", "png"])])]

/-- Concrete provider whose upload rejects with a MediaError-shaped
error; no search capability. -/
def wRejectingProvider : MediaProvider String String String String :=
  { name := "mock",
    features := wFeatures,
    upload := fun _ _ => .error (.err { message := "upload failed", code := some "UPLOAD_FAILED" }),
    delete := fun _ => .ok (),
    uploadMultiple := fun _ _ => .ok [],
    search := none }

/-- Concrete provider whose upload rejects with the Error named
"primary failure". -/
def wPrimaryFailProvider : MediaProvider String String String String :=
  { wRejectingProvider with
    upload := fun _ _ => .error (.err { message := "primary failure", code := some "NETWORK_ERROR" }) }

/-- Concrete provider whose upload rejects with a non-Error value (its
String form is "42"). -/
def wNonErrorProvider : MediaProvider String String String String :=
  { wRejectingProvider with upload := fun _ _ => .error (.other "42") }

/-- Concrete provider whose upload resolves. -/
def wOkProvider : MediaProvider String String String String :=
  { wRejectingProvider with upload := fun f o => .ok ("stored:" ++ f ++ ":" ++ o) }

/-- Concrete provider implementing search. -/
def wSearchProvider : MediaProvider String String String String :=
  { wRejectingProvider with search := some fun q => .ok ["found:" ++ q] }

/-- Uploader for the C1 counterexample: a rejecting provider and two
onError plugins, the first of which rejects. -/
def wC1Uploader : MediaUploader String String String String :=
  { provider := wRejectingProvider,
    plugins := ((PluginManager.empty String String String).registerAll [wCrashFirst, wNeverSeen]).2 }

/-- Uploader for the C1 amended witness: rejecting provider, beforeUpload
chain and a succeeding onError handler. -/
def wErrUploader : MediaUploader String String String String :=
  { provider := wRejectingProvider,
    plugins := ((PluginManager.empty String String String).registerAll [wRename, wObserve]).2 }

/-- Uploader for the C6 counterexample: the provider fails with "primary
failure" and the only onError handler rejects. -/
def wC6Uploader : MediaUploader String String String String :=
  { provider := wPrimaryFailProvider,
    plugins := ((PluginManager.empty String String String).registerAll [wMasker]).2 }

/-- Uploader for the C9 witness: the provider rejects with a non-Error
value. -/
def wC9Uploader : MediaUploader String String String String :=
  { provider := wNonErrorProvider,
    plugins := ((PluginManager.empty String String String).registerAll [wRename, wObserve]).2 }

/-- Concrete plugin whose onError handler rejects, paired with a provider
that rejects with a non-Error value. -/
def wNonErrorMasker : FluxMediaPlugin String String String :=
  { name := "non-error-masker",
    hooks := { hooksNone with
      onError := some fun _ _ _ =>
        .error (.err { message := "handler crashed on 42", code := none }) } }

/-- Uploader for the C9 counterexample: the provider rejects with the
non-Error value 42 and the only registered onError handler rejects. -/
def wC9CexUploader : MediaUploader String String String String :=
  { provider := wNonErrorProvider,
    plugins := ((PluginManager.empty String String String).registerAll [wNonErrorMasker]).2 }

/-- Uploader whose provider lacks search. -/
def wNoSearchUploader : MediaUploader String String String String :=
  { provider := wRejectingProvider, plugins := PluginManager.empty String String String }

/-- Uploader whose provider implements search. -/
def wSearchUploader : MediaUploader String String String String :=
  { provider := wSearchProvider, plugins := PluginManager.empty String String String }

/-- Uploader for the C5 witness: succeeding provider with two beforeUpload
plugins. -/
def wOkUploader : MediaUploader String String String String :=
  { provider := wOkProvider,
    plugins := ((PluginManager.empty String String String).registerAll [wRename, wObserve]).2 }

/-- Uploader for the C10 witness: an empty-string-returning beforeDelete
plugin followed by a replacing one. -/
def wDeleteUploader : MediaUploader String String String String :=
  { provider := wOkProvider,
    plugins := ((PluginManager.empty String String String).registerAll [wEmptyRewriter, wPrefixer]).2 }

theorem runBeforeUploadList_snd_eq_fold {F O R : Type} (ps : List (FluxMediaPlugin F O R))
    (file : F) (options : O) :
    (runBeforeUploadList ps file options).2 = beforeUploadFold ps file options := by
  induction ps generalizing file options with
  | nil => rfl
  | cons p ps ih =>
    simp only [runBeforeUploadList, beforeUploadFold, List.foldlM]
    cases hb : p.hooks.beforeUpload with
    | none =>
      simpa only [beforeUploadFold] using ih file options
    | some h =>
      cases hr : h file options with
      | error t => simp only [hr]; rfl
      | ok res =>
        cases res with
        | none => simpa only [hr, beforeUploadFold] using ih file options
        | some pair => simpa only [hr, beforeUploadFold] using ih pair.1 pair.2

/-- Claim C2: runBeforeUpload is the left-to-right fold over the
execution-ordered plugin list that threads the accumulated (file, options)
pair through each plugin's beforeUpload hook, where a replacement pair
becomes the accumulator seen by all subsequent plugins, a void result
keeps the previous accumulator, and the final accumulator is what
runBeforeUpload returns. -/
theorem runBeforeUpload_eq_fold {F O R : Type} (st : PluginManager F O R)
    (file : F) (options : O) :
    (st.runBeforeUpload file options).2 = beforeUploadFold st.getAll file options :=
  runBeforeUploadList_snd_eq_fold _ _ _

theorem supportsWalk_iff_resolvePath (v : FeatureValue) (parts : List String) :
    supportsWalk v parts = true ↔ resolvePath v parts = some (.flag true) := by
  induction parts generalizing v with
  | nil =>
    cases v with
    | flag b => cases b <;> simp [supportsWalk, resolvePath, FeatureValue.isTrue]
    | num n => simp [supportsWalk, resolvePath, FeatureValue.isTrue]
    | formats l => simp [supportsWalk, resolvePath, FeatureValue.isTrue]
    | group fields => simp [supportsWalk, resolvePath, FeatureValue.isTrue]
  | cons part rest ih =>
    cases v with
    | flag b => simp [supportsWalk, resolvePath]
    | num n => simp [supportsWalk, resolvePath]
    | formats l => simp [supportsWalk, resolvePath]
    | group fields =>
      cases hg : mapGet fields part with
      | none => simp [supportsWalk, resolvePath, hg]
      | some w => simp [supportsWalk, resolvePath, hg, ih]

/-- Claim C8: supports walks the provider's feature matrix segment by
segment along the dots and never raises: it returns true exactly when
every segment resolves and the reached leaf is the boolean true, and
returns false for any missing segment or any leaf that is not the boolean
true. -/
theorem supports_iff_resolves {F O R Q : Type} (u : MediaUploader F O R Q)
    (feature : String) :
    u.supports feature = true ↔
      resolvePath u.provider.features (feature.splitOn ".") = some (.flag true) :=
  supportsWalk_iff_resolvePath _ _

theorem mapGet_mapSet_self {a : Type} (m : List (String × a)) (k : String) (v : a) :
    mapGet (mapSet m k v) k = some v := by
  induction m with
  | nil => simp [mapSet, mapGet]
  | cons kv rest ih =>
    obtain ⟨k1, v1⟩ := kv
    by_cases h : k1 = k
    · simp [mapSet, mapGet, h]
    · simp [mapSet, mapGet, h, ih]

theorem mapSet_length_of_get {a : Type} (m : List (String × a)) (k : String) (v w : a)
    (h : mapGet m k = some w) : (mapSet m k v).length = m.length := by
  induction m with
  | nil => simp [mapGet] at h
  | cons kv rest ih =>
    obtain ⟨k1, v1⟩ := kv
    by_cases hk : k1 = k
    · simp [mapSet, hk]
    · simp only [mapGet, if_neg hk] at h
      simp [mapSet, hk, ih h]

/-- Claim C3: registering a plugin under a name already present first
awaits the displaced plugin's destroy (its event precedes the replacement
init event in the sequential trace, so destroy completed before init
began), after which get on that name returns the new plugin and the
registry size is unchanged. -/
theorem register_override_sequencing {F O R : Type} (st : PluginManager F O R)
    (p q : FluxMediaPlugin F O R)
    (hq : st.get p.name = some q) (hd : q.hasDestroy = true) (hi : p.hasInit = true) :
    (st.register p).1 = [.destroyHook q.name, .initHook p.name]
    ∧ (st.register p).2.get p.name = some p
    ∧ (st.register p).2.size = st.size := by
  unfold PluginManager.get at hq
  refine ⟨?_, ?_, ?_⟩
  · simp [PluginManager.register, hq, hd, hi]
  · simp [PluginManager.register, PluginManager.get, mapGet_mapSet_self]
  · simp [PluginManager.register, PluginManager.size, mapSet_length_of_get _ _ _ _ hq]

/-- Witness for C3: overriding the concrete plugin "dup". -/
theorem register_override_sequencing_witness :
    wC3St.get wNewPlugin.name = some wOldPlugin
    ∧ wOldPlugin.hasDestroy = true
    ∧ wNewPlugin.hasInit = true
    ∧ (wC3St.register wNewPlugin).1 = [.destroyHook "dup", .initHook "dup"]
    ∧ (wC3St.register wNewPlugin).2.get wNewPlugin.name = some wNewPlugin
    ∧ (wC3St.register wNewPlugin).2.size = wC3St.size :=
  ⟨rfl, rfl, rfl, (register_override_sequencing wC3St wNewPlugin wOldPlugin rfl rfl rfl).1,
   (register_override_sequencing wC3St wNewPlugin wOldPlugin rfl rfl rfl).2.1,
   (register_override_sequencing wC3St wNewPlugin wOldPlugin rfl rfl rfl).2.2⟩

theorem runOnErrorList_ok_trace {F O R : Type} (ps : List (FluxMediaPlugin F O R))
    (e : JSError) (file : F) (options : O)
    (h : (runOnErrorList ps e file options).2 = .ok ()) :
    (runOnErrorList ps e file options).1 = onErrorFanOut ps e file options := by
  induction ps with
  | nil => rfl
  | cons p ps ih =>
    cases ho : p.hooks.onError with
    | none =>
      simp only [runOnErrorList, ho] at h ⊢
      simp only [onErrorFanOut, List.filter_cons, ho, Option.isSome_none, Bool.false_eq_true,
        if_false]
      exact ih h
    | some hh =>
      cases hr : hh e file options with
      | error t => simp [runOnErrorList, ho, hr] at h
      | ok uu =>
        simp only [runOnErrorList, ho, hr] at h ⊢
        simp only [onErrorFanOut, List.filter_cons, ho, Option.isSome_some, if_true,
          List.map_cons]
        rw [ih h]
        rfl

theorem runOnError_eq_list {F O R : Type} (st : PluginManager F O R) (e : JSError)
    (file : F) (options : O) :
    st.runOnError e file options = runOnErrorList st.getAll e file options := rfl

theorem upload_catch_eq {F O R Q : Type} (u : MediaUploader F O R Q)
    (file : F) (options : O) (f2 : F) (o2 : O) (evs1 : List (Event F O R)) (e : Thrown)
    (hb : u.plugins.runBeforeUpload file options = (evs1, .ok (f2, o2)))
    (hp : u.provider.upload f2 o2 = .error e) :
    u.upload file options =
      (evs1 ++ .providerUpload f2 o2 :: (u.plugins.runOnError (toJSError e) f2 o2).1,
       match (u.plugins.runOnError (toJSError e) f2 o2).2 with
       | .ok _ => .error e
       | .error t2 => .error t2) := by
  unfold MediaUploader.upload
  rw [hb]
  dsimp only
  rw [hp]

/-- Claim C1 counterexample: the claim fails as stated when an onError
handler itself rejects.  With provider rejection "upload failed" and the
first registered handler rejecting, the second registered plugin's onError
is never invoked (it is absent from the trace) and the caller observes the
handler's error instead of the provider's. -/
theorem upload_fanout_counterexample :
    (wC1Uploader.upload "pic" "o").1
      = [.providerUpload "pic" "o",
         .onErrorHook "crash-first" { message := "upload failed", code := some "UPLOAD_FAILED" }
           "pic" "o"]
    ∧ (wC1Uploader.upload "pic" "o").2
        = .error (.err { message := "handler exploded", code := none })
    ∧ (wC1Uploader.upload "pic" "o").2
        ≠ .error (.err { message := "upload failed", code := some "UPLOAD_FAILED" }) := by
  refine ⟨rfl, rfl, ?_⟩
  intro hcontra
  rw [show (wC1Uploader.upload "pic" "o").2
      = Except.error (Thrown.err { message := "handler exploded", code := none }) from rfl]
    at hcontra
  injection hcontra with h3
  exact absurd h3 (by decide)

/-- Claim C1 (amended): when the provider's upload rejects and no
registered onError handler itself rejects, upload runs the onError fan-out
with the effective post-beforeUpload file and options as context, invoking
the onError hook of every registered plugin that has one exactly once in
execution order, and then re-raises the very thrown value the provider
produced, unchanged. -/
theorem upload_provider_error_fanout_rethrow {F O R Q : Type} (u : MediaUploader F O R Q)
    (file : F) (options : O) (f2 : F) (o2 : O) (evs1 : List (Event F O R)) (e : Thrown)
    (hb : u.plugins.runBeforeUpload file options = (evs1, .ok (f2, o2)))
    (hp : u.provider.upload f2 o2 = .error e)
    (hok : (u.plugins.runOnError (toJSError e) f2 o2).2 = .ok ()) :
    u.upload file options =
      (evs1 ++ .providerUpload f2 o2 :: onErrorFanOut u.plugins.getAll (toJSError e) f2 o2,
       .error e) := by
  have h1 : (u.plugins.runOnError (toJSError e) f2 o2).1
      = onErrorFanOut u.plugins.getAll (toJSError e) f2 o2 :=
    runOnErrorList_ok_trace u.plugins.getAll (toJSError e) f2 o2 hok
  rw [upload_catch_eq u file options f2 o2 evs1 e hb hp, h1, hok]

/-- Witness for the amended C1 at a concrete uploader. -/
theorem upload_provider_error_fanout_rethrow_witness :
    wErrUploader.plugins.runBeforeUpload "pic" "o"
      = ([.beforeUploadHook "rename" "pic" "o",
          .beforeUploadHook "observe" "pic.webp" "o;renamed"],
         .ok ("pic.webp", "o;renamed"))
    ∧ wErrUploader.provider.upload "pic.webp" "o;renamed"
        = .error (.err { message := "upload failed", code := some "UPLOAD_FAILED" })
    ∧ (wErrUploader.plugins.runOnError
          (toJSError (.err { message := "upload failed", code := some "UPLOAD_FAILED" }))
          "pic.webp" "o;renamed").2 = .ok ()
    ∧ wErrUploader.upload "pic" "o"
        = ([.beforeUploadHook "rename" "pic" "o",
            .beforeUploadHook "observe" "pic.webp" "o;renamed"]
            ++ .providerUpload "pic.webp" "o;renamed"
              :: onErrorFanOut wErrUploader.plugins.getAll
                   (toJSError (.err { message := "upload failed", code := some "UPLOAD_FAILED" }))
                   "pic.webp" "o;renamed",
           .error (.err { message := "upload failed", code := some "UPLOAD_FAILED" })) :=
  ⟨rfl, rfl, rfl,
   upload_provider_error_fanout_rethrow wErrUploader "pic" "o" "pic.webp" "o;renamed"
     [.beforeUploadHook "rename" "pic" "o", .beforeUploadHook "observe" "pic.webp" "o;renamed"]
     (.err { message := "upload failed", code := some "UPLOAD_FAILED" }) rfl rfl rfl⟩

/-- Claim C6 counterexample: the onError fan-out does mask the original
provider error when a handler rejects — the caller observes the handler's
"secondary failure" instead of the provider's "primary failure". -/
theorem onError_masking_counterexample :
    (wC6Uploader.upload "file" "o").2
      = .error (.err { message := "secondary failure", code := none })
    ∧ (wC6Uploader.upload "file" "o").2
        ≠ .error (.err { message := "primary failure", code := some "NETWORK_ERROR" }) := by
  refine ⟨rfl, ?_⟩
  intro hcontra
  rw [show (wC6Uploader.upload "file" "o").2
      = Except.error (Thrown.err { message := "secondary failure", code := none }) from rfl]
    at hcontra
  injection hcontra with h3
  exact absurd h3 (by decide)

/-- Claim C6 (amended): per-plugin failures in the onError fan-out are not
isolated.  When the provider's upload rejects and the fan-out itself
rejects (some registered handler throws), the handler's thrown value is
what the caller of upload observes, masking the provider's error; the
original provider error reaches the caller exactly when the whole fan-out
resolves. -/
theorem onError_rejection_masks {F O R Q : Type} (u : MediaUploader F O R Q)
    (file : F) (options : O) (f2 : F) (o2 : O) (evs1 : List (Event F O R)) (e t : Thrown)
    (hb : u.plugins.runBeforeUpload file options = (evs1, .ok (f2, o2)))
    (hp : u.provider.upload f2 o2 = .error e)
    (ht : (u.plugins.runOnError (toJSError e) f2 o2).2 = .error t) :
    (u.upload file options).2 = .error t := by
  rw [upload_catch_eq u file options f2 o2 evs1 e hb hp]
  simp only [ht]

/-- Witness for the amended C6 at a concrete uploader. -/
theorem onError_rejection_masks_witness :
    wC6Uploader.plugins.runBeforeUpload "file" "o" = ([], .ok ("file", "o"))
    ∧ wC6Uploader.provider.upload "file" "o"
        = .error (.err { message := "primary failure", code := some "NETWORK_ERROR" })
    ∧ (wC6Uploader.plugins.runOnError
          (toJSError (.err { message := "primary failure", code := some "NETWORK_ERROR" }))
          "file" "o").2 = .error (.err { message := "secondary failure", code := none })
    ∧ (wC6Uploader.upload "file" "o").2
        = .error (.err { message := "secondary failure", code := none }) :=
  ⟨rfl, rfl, rfl,
   onError_rejection_masks wC6Uploader "file" "o" "file" "o" []
     (.err { message := "primary failure", code := some "NETWORK_ERROR" })
     (.err { message := "secondary failure", code := none }) rfl rfl rfl⟩

/-- Claim C9 counterexample: the claim fails as stated when an onError
handler itself rejects.  The provider rejects with the non-Error value 42;
the fan-out does receive the freshly constructed Error with message "42",
but the caller observes the handler's error, not the original non-Error
value re-thrown verbatim. -/
theorem upload_non_error_rejection_counterexample :
    wC9CexUploader.provider.upload "f" "o" = .error (.other "42")
    ∧ (wC9CexUploader.upload "f" "o").1
        = [.providerUpload "f" "o",
           .onErrorHook "non-error-masker" { message := "42", code := none } "f" "o"]
    ∧ (wC9CexUploader.upload "f" "o").2
        = .error (.err { message := "handler crashed on 42", code := none })
    ∧ (wC9CexUploader.upload "f" "o").2 ≠ .error (.other "42") := by
  refine ⟨rfl, rfl, rfl, ?_⟩
  intro hcontra
  rw [show (wC9CexUploader.upload "f" "o").2
      = Except.error (Thrown.err { message := "handler crashed on 42", code := none }) from rfl]
    at hcontra
  injection hcontra with h3
  exact absurd h3 (by decide)

/-- Claim C9 (amended): when the provider rejects with a value that is not
an Error instance, the onError fan-out receives a freshly constructed
Error whose message is the String form of that value, and — provided no
onError handler itself rejects — the caller of upload still receives the
original non-Error thrown value itself, a different object from what the
plugins observed; if a handler rejects, the handler's error reaches the
caller instead. -/
theorem upload_non_error_rejection {F O R Q : Type} (u : MediaUploader F O R Q)
    (file : F) (options : O) (f2 : F) (o2 : O) (evs1 : List (Event F O R)) (s : String)
    (hb : u.plugins.runBeforeUpload file options = (evs1, .ok (f2, o2)))
    (hp : u.provider.upload f2 o2 = .error (.other s))
    (hok : (u.plugins.runOnError (toJSError (.other s)) f2 o2).2 = .ok ()) :
    toJSError (Thrown.other s) = { message := s, code := none }
    ∧ u.upload file options =
        (evs1 ++ .providerUpload f2 o2
           :: onErrorFanOut u.plugins.getAll { message := s, code := none } f2 o2,
         .error (.other s))
    ∧ ∀ e2 : JSError, Thrown.other s ≠ Thrown.err e2 := by
  refine ⟨rfl, ?_, fun e2 hcontra => by cases hcontra⟩
  have h1 : (u.plugins.runOnError (toJSError (.other s)) f2 o2).1
      = onErrorFanOut u.plugins.getAll (toJSError (.other s)) f2 o2 :=
    runOnErrorList_ok_trace u.plugins.getAll (toJSError (.other s)) f2 o2 hok
  rw [upload_catch_eq u file options f2 o2 evs1 (.other s) hb hp, h1, hok]
  rfl

/-- Witness for C9 at a concrete uploader whose provider rejects with the
non-Error value 42. -/
theorem upload_non_error_rejection_witness :
    wC9Uploader.plugins.runBeforeUpload "pic" "o"
      = ([.beforeUploadHook "rename" "pic" "o",
          .beforeUploadHook "observe" "pic.webp" "o;renamed"],
         .ok ("pic.webp", "o;renamed"))
    ∧ wC9Uploader.provider.upload "pic.webp" "o;renamed" = .error (.other "42")
    ∧ (wC9Uploader.plugins.runOnError (toJSError (.other "42")) "pic.webp" "o;renamed").2
        = .ok ()
    ∧ (toJSError (Thrown.other "42") = { message := "42", code := none }
       ∧ wC9Uploader.upload "pic" "o"
           = ([.beforeUploadHook "rename" "pic" "o",
               .beforeUploadHook "observe" "pic.webp" "o;renamed"]
               ++ .providerUpload "pic.webp" "o;renamed"
                 :: onErrorFanOut wC9Uploader.plugins.getAll
                      { message := "42", code := none } "pic.webp" "o;renamed",
              .error (.other "42"))
       ∧ ∀ e2 : JSError, Thrown.other "42" ≠ Thrown.err e2) :=
  ⟨rfl, rfl, rfl,
   upload_non_error_rejection wC9Uploader "pic" "o" "pic.webp" "o;renamed"
     [.beforeUploadHook "rename" "pic" "o", .beforeUploadHook "observe" "pic.webp" "o;renamed"]
     "42" rfl rfl rfl⟩

/-- Claim C7 evidence: search on a provider lacking the search method
throws a plain Error whose message names the provider, but the error is
untyped — its MediaError code field is absent, so it carries no member of
the closed code enumeration (contradicting the documented
`@throws MediaError` contract); on a provider implementing search the call
is a passthrough. -/
theorem search_missing_capability_untyped :
    wNoSearchUploader.search "kittens"
      = .error (.err { message := "Search is not supported by mock provider", code := none })
    ∧ (mediaErrorCodes.map some).contains
        (JSError.mk "Search is not supported by mock provider" none).code = false
    ∧ wSearchUploader.search "kittens" = .ok ["found:kittens"] := by
  refine ⟨rfl, ?_, rfl⟩
  decide

theorem runBeforeDelete_eq_list {F O R : Type} (st : PluginManager F O R) (id : String) :
    st.runBeforeDelete id = runBeforeDeleteList st.getAll id := rfl

theorem runAfterDelete_eq_list {F O R : Type} (st : PluginManager F O R) (id : String) :
    st.runAfterDelete id = runAfterDeleteList st.getAll id := rfl

theorem runBeforeDeleteList_events {F O R : Type} (ps : List (FluxMediaPlugin F O R)) :
    ∀ (id : String), ∀ ev ∈ (runBeforeDeleteList ps id).1,
      ∃ n i, ev = Event.beforeDeleteHook n i := by
  induction ps with
  | nil => intro id ev hmem; simp [runBeforeDeleteList] at hmem
  | cons p ps ih =>
    intro id ev hmem
    cases hd : p.hooks.beforeDelete with
    | none =>
      rw [runBeforeDeleteList, hd] at hmem
      exact ih id ev hmem
    | some hk =>
      cases hr : hk id with
      | error t =>
        rw [runBeforeDeleteList, hd] at hmem
        simp only [hr, List.mem_singleton] at hmem
        exact ⟨p.name, id, hmem⟩
      | ok res =>
        rw [runBeforeDeleteList, hd] at hmem
        simp only [hr, List.mem_cons] at hmem
        rcases hmem with rfl | hmem
        · exact ⟨p.name, id, rfl⟩
        · exact ih _ ev hmem

theorem runAfterDeleteList_events {F O R : Type} (ps : List (FluxMediaPlugin F O R)) :
    ∀ (id : String), ∀ ev ∈ (runAfterDeleteList ps id).1,
      ∃ n i, ev = Event.afterDeleteHook n i := by
  induction ps with
  | nil => intro id ev hmem; simp [runAfterDeleteList] at hmem
  | cons p ps ih =>
    intro id ev hmem
    cases hd : p.hooks.afterDelete with
    | none =>
      rw [runAfterDeleteList, hd] at hmem
      exact ih id ev hmem
    | some hk =>
      cases hr : hk id with
      | error t =>
        rw [runAfterDeleteList, hd] at hmem
        simp only [hr, List.mem_singleton] at hmem
        exact ⟨p.name, id, hmem⟩
      | ok uu =>
        rw [runAfterDeleteList, hd] at hmem
        simp only [hr, List.mem_cons] at hmem
        rcases hmem with rfl | hmem
        · exact ⟨p.name, id, rfl⟩
        · exact ih _ ev hmem

theorem runBeforeDeleteList_ok_ne_empty {F O R : Type} (ps : List (FluxMediaPlugin F O R)) :
    ∀ (id pid : String), (runBeforeDeleteList ps id).2 = .ok pid → id ≠ "" → pid ≠ "" := by
  induction ps with
  | nil =>
    intro id pid h hid
    rw [runBeforeDeleteList] at h
    injection h with h2
    exact h2 ▸ hid
  | cons p ps ih =>
    intro id pid h hid
    cases hd : p.hooks.beforeDelete with
    | none =>
      rw [runBeforeDeleteList, hd] at h
      exact ih id pid h hid
    | some hk =>
      cases hr : hk id with
      | error t => rw [runBeforeDeleteList, hd] at h; simp [hr] at h
      | ok res =>
        rw [runBeforeDeleteList, hd] at h
        simp only [hr] at h
        refine ih _ pid h ?_
        cases res with
        | none => simpa [jsTruthy] using hid
        | some s =>
          by_cases hs : s = ""
          · simpa [jsTruthy, hs] using hid
          · simp [jsTruthy, hs]

/-- Claim C10: a beforeDelete hook resolving with the empty string is
treated by the chain exactly like a hook resolving with nothing — the
previously accumulated id is retained, the subsequent plugins run on that
retained id, and the id handed to the provider can therefore never become
the empty string through the beforeDelete chain. -/
theorem beforeDelete_empty_string_ignored {F O R Q : Type}
    (p : FluxMediaPlugin F O R) (ps : List (FluxMediaPlugin F O R)) (id : String)
    (hk : String → JSResult (Option String))
    (hp : p.hooks.beforeDelete = some hk) :
    (hk id = .ok (some "") →
       runBeforeDeleteList (p :: ps) id
         = (.beforeDeleteHook p.name id :: (runBeforeDeleteList ps id).1,
            (runBeforeDeleteList ps id).2))
    ∧ (hk id = .ok none →
       runBeforeDeleteList (p :: ps) id
         = (.beforeDeleteHook p.name id :: (runBeforeDeleteList ps id).1,
            (runBeforeDeleteList ps id).2))
    ∧ (∀ (qs : List (FluxMediaPlugin F O R)) (i pid : String),
         (runBeforeDeleteList qs i).2 = .ok pid → i ≠ "" → pid ≠ "")
    ∧ (∀ (u : MediaUploader F O R Q) (i : String), i ≠ "" →
         Event.providerDelete "" ∉ (u.deleteOp i).1) := by
  refine ⟨?_, ?_, fun qs => runBeforeDeleteList_ok_ne_empty qs, ?_⟩
  · intro hr
    rw [runBeforeDeleteList, hp]
    simp [hr, jsTruthy]
  · intro hr
    rw [runBeforeDeleteList, hp]
    simp [hr, jsTruthy]
  · intro u i hi hmem
    unfold MediaUploader.deleteOp at hmem
    rw [runBeforeDelete_eq_list] at hmem
    cases hbd : runBeforeDeleteList u.plugins.getAll i with
    | mk evs1 r =>
      have hsh : ∀ ev ∈ evs1, ∃ n i2, ev = Event.beforeDeleteHook n i2 := by
        have h0 := runBeforeDeleteList_events u.plugins.getAll i
        rw [hbd] at h0
        exact h0
      rw [hbd] at hmem
      cases r with
      | error t =>
        dsimp only at hmem
        obtain ⟨n, i2, hshape⟩ := hsh _ hmem
        exact Event.noConfusion hshape
      | ok pid =>
        have hpid : pid ≠ "" :=
          runBeforeDeleteList_ok_ne_empty u.plugins.getAll i pid (by rw [hbd]) hi
        dsimp only at hmem
        cases hpr : u.provider.delete pid with
        | error t =>
          rw [hpr] at hmem
          dsimp only at hmem
          rcases List.mem_append.mp hmem with hmem1 | hmem1
          · obtain ⟨n, i2, hshape⟩ := hsh _ hmem1
            exact Event.noConfusion hshape
          · rw [List.mem_singleton] at hmem1
            injection hmem1 with h2
            exact hpid h2.symm
        | ok uu =>
          rw [hpr] at hmem
          dsimp only at hmem
          rcases List.mem_append.mp hmem with hmem1 | hmem1
          · obtain ⟨n, i2, hshape⟩ := hsh _ hmem1
            exact Event.noConfusion hshape
          · rcases List.mem_cons.mp hmem1 with h2 | hmem2
            · injection h2 with h3
              exact hpid h3.symm
            · obtain ⟨n, i2, hshape⟩ :=
                runAfterDeleteList_events u.plugins.getAll pid _ hmem2
              exact Event.noConfusion hshape

/-- Witness for C10: the empty-string-returning plugin leaves the id for
the next plugin unchanged, and the provider receives a non-empty id. -/
theorem beforeDelete_empty_string_ignored_witness :
    wEmptyRewriter.hooks.beforeDelete = some (fun _ => Except.ok (some ""))
    ∧ runBeforeDeleteList [wEmptyRewriter, wPrefixer] "img1"
        = (.beforeDeleteHook "empty-rewriter" "img1"
             :: (runBeforeDeleteList [wPrefixer] "img1").1,
           (runBeforeDeleteList [wPrefixer] "img1").2)
    ∧ (runBeforeDeleteList [wEmptyRewriter, wPrefixer] "img1").2 = .ok "v2/img1"
    ∧ Event.providerDelete "" ∉ (wDeleteUploader.deleteOp "img1").1 :=
  ⟨rfl,
   (beforeDelete_empty_string_ignored (Q := String) wEmptyRewriter [wPrefixer] "img1"
      (fun _ => Except.ok (some "")) rfl).1 rfl,
   rfl,
   (beforeDelete_empty_string_ignored (Q := String) wEmptyRewriter [wPrefixer] "img1"
      (fun _ => Except.ok (some "")) rfl).2.2.2 wDeleteUploader "img1" (by decide)⟩

theorem mapSet_of_get_none {a : Type} (m : List (String × a)) (k : String) (v : a)
    (h : mapGet m k = none) : mapSet m k v = m ++ [(k, v)] := by
  induction m with
  | nil => rfl
  | cons kv rest ih =>
    obtain ⟨k1, v1⟩ := kv
    by_cases hk : k1 = k
    · simp [mapGet, hk] at h
    · simp only [mapGet, if_neg hk] at h
      simp [mapSet, hk, ih h]

theorem mapGet_append_of_none {a : Type} (m1 m2 : List (String × a)) (k : String)
    (h : mapGet m1 k = none) : mapGet (m1 ++ m2) k = mapGet m2 k := by
  induction m1 with
  | nil => rfl
  | cons kv rest ih =>
    obtain ⟨k1, v1⟩ := kv
    by_cases hk : k1 = k
    · simp [mapGet, hk] at h
    · simp only [mapGet, if_neg hk] at h
      simp only [List.cons_append, mapGet, if_neg hk]
      exact ih h

theorem getAll_eq_values {F O R : Type} (st : PluginManager F O R)
    (h : st.cacheInvalid = false → st.orderedPlugins = st.pluginCache.map Prod.snd) :
    st.getAll = st.pluginCache.map Prod.snd := by
  unfold PluginManager.getAll PluginManager.rebuildCacheIfNeeded
  cases hc : st.cacheInvalid with
  | true => simp
  | false => simp [h hc]

theorem register_cacheInvalid {F O R : Type} (st : PluginManager F O R)
    (p : FluxMediaPlugin F O R) : (st.register p).2.cacheInvalid = true := rfl

theorem registerAll_snd {F O R : Type} (st : PluginManager F O R)
    (p : FluxMediaPlugin F O R) (ps : List (FluxMediaPlugin F O R)) :
    (st.registerAll (p :: ps)).2 = ((st.register p).2.registerAll ps).2 := rfl

theorem registerAll_append_one {F O R : Type} (ps : List (FluxMediaPlugin F O R)) :
    ∀ (st : PluginManager F O R) (q : FluxMediaPlugin F O R),
      (st.registerAll (ps ++ [q])).2 = ((st.registerAll ps).2.register q).2 := by
  induction ps with
  | nil => intro st q; rfl
  | cons p ps ih =>
    intro st q
    rw [List.cons_append, registerAll_snd, registerAll_snd, ih]

theorem registerAll_cache_fresh {F O R : Type} (ps : List (FluxMediaPlugin F O R)) :
    ∀ st : PluginManager F O R,
      (∀ p ∈ ps, mapGet st.pluginCache p.name = none) →
      (ps.map FluxMediaPlugin.name).Nodup →
      (st.registerAll ps).2.pluginCache
        = st.pluginCache ++ ps.map (fun p => (p.name, p)) := by
  induction ps with
  | nil => intro st hf hn; simp [PluginManager.registerAll]
  | cons p ps ih =>
    intro st hf hn
    rw [registerAll_snd]
    have hc1 : (st.register p).2.pluginCache = st.pluginCache ++ [(p.name, p)] := by
      simp [PluginManager.register,
        mapSet_of_get_none _ _ _ (hf p (List.mem_cons_self p ps))]
    simp only [List.map_cons, List.nodup_cons] at hn
    have hf2 : ∀ q ∈ ps, mapGet (st.register p).2.pluginCache q.name = none := by
      intro q hq
      rw [hc1, mapGet_append_of_none _ _ _ (hf q (List.mem_cons_of_mem p hq))]
      have hne : p.name ≠ q.name := by
        intro he
        exact hn.1 (he ▸ List.mem_map_of_mem FluxMediaPlugin.name hq)
      simp [mapGet, hne]
    rw [ih (st.register p).2 hf2 hn.2, hc1]
    simp

theorem registerAll_coherent {F O R : Type} (ps : List (FluxMediaPlugin F O R)) :
    ∀ st : PluginManager F O R,
      (st.cacheInvalid = false → st.orderedPlugins = st.pluginCache.map Prod.snd) →
      ((st.registerAll ps).2.cacheInvalid = false →
        (st.registerAll ps).2.orderedPlugins = (st.registerAll ps).2.pluginCache.map Prod.snd) := by
  induction ps with
  | nil => intro st h; exact h
  | cons p ps ih =>
    intro st _
    rw [registerAll_snd]
    refine ih (st.register p).2 ?_
    intro hfalse
    exact absurd (register_cacheInvalid st p ▸ hfalse) (by simp)

theorem mapSet_existing_eq_set {a : Type} (m : List (String × a)) :
    ∀ (i : Nat) (hi : i < m.length) (k : String) (v : a),
      (m.map Prod.fst).Nodup → (m.get ⟨i, hi⟩).1 = k →
      mapSet m k v = m.set i (k, v) := by
  induction m with
  | nil => intro i hi; simp at hi
  | cons kv rest ih =>
    intro i hi k v hnodup hk
    obtain ⟨k1, v1⟩ := kv
    cases i with
    | zero =>
      simp only [List.get] at hk
      simp [mapSet, hk]
    | succ n =>
      simp only [List.get] at hk
      simp only [List.map_cons, List.nodup_cons] at hnodup
      have hmem : k ∈ rest.map Prod.fst := by
        rw [← hk]
        exact List.mem_map_of_mem Prod.fst (rest.get_mem _ _)
      have hne : k1 ≠ k := fun he => hnodup.1 (he ▸ hmem)
      simp only [mapSet, if_neg hne, List.set_cons_succ]
      rw [ih n _ k v hnodup.2 hk]

theorem runBeforeUpload_eq_list {F O R : Type} (st : PluginManager F O R)
    (file : F) (options : O) :
    st.runBeforeUpload file options = runBeforeUploadList st.getAll file options := rfl

theorem runBeforeUploadList_ok_names {F O R : Type} (ps : List (FluxMediaPlugin F O R)) :
    ∀ (file : F) (options : O) (pr : F × O),
      (runBeforeUploadList ps file options).2 = .ok pr →
      (runBeforeUploadList ps file options).1.filterMap buName
        = (ps.filter fun p => p.hooks.beforeUpload.isSome).map FluxMediaPlugin.name := by
  induction ps with
  | nil => intro f o pr h; rfl
  | cons p ps ih =>
    intro f o pr h
    cases hb : p.hooks.beforeUpload with
    | none =>
      simp only [runBeforeUploadList, hb] at h ⊢
      rw [List.filter_cons_of_neg (by simp [hb])]
      exact ih f o pr h
    | some hk =>
      cases hr : hk f o with
      | error t =>
        simp only [runBeforeUploadList, hb, hr] at h
        exact Except.noConfusion h
      | ok res =>
        cases res with
        | none =>
          simp only [runBeforeUploadList, hb, hr] at h ⊢
          rw [List.filter_cons_of_pos (by simp [hb]), List.map_cons]
          simp only [List.filterMap_cons, buName]
          rw [ih f o pr h]
        | some pair =>
          simp only [runBeforeUploadList, hb, hr] at h ⊢
          rw [List.filter_cons_of_pos (by simp [hb]), List.map_cons]
          simp only [List.filterMap_cons, buName]
          rw [ih pair.1 pair.2 pr h]

/-- Claim C4: from an empty manager, registrations with distinct names
make getAll return the plugins in registration order and make a
(successful) beforeUpload run visit exactly the plugins possessing that
hook in that order; re-registering an existing name keeps the name's
original execution slot and only swaps the plugin object installed
there. -/
theorem registration_order_and_override_slot {F O R : Type} :
    (∀ ps : List (FluxMediaPlugin F O R),
       (ps.map FluxMediaPlugin.name).Nodup →
       ((PluginManager.empty F O R).registerAll ps).2.getAll = ps)
    ∧ (∀ (ps : List (FluxMediaPlugin F O R)) (file : F) (options : O) (pr : F × O),
       (ps.map FluxMediaPlugin.name).Nodup →
       ((((PluginManager.empty F O R).registerAll ps).2.runBeforeUpload file options).2 = .ok pr) →
       ((((PluginManager.empty F O R).registerAll ps).2.runBeforeUpload file options).1.filterMap
           buName
         = (ps.filter fun p => p.hooks.beforeUpload.isSome).map FluxMediaPlugin.name))
    ∧ (∀ (ps : List (FluxMediaPlugin F O R)) (i : Nat) (hi : i < ps.length)
         (q : FluxMediaPlugin F O R),
       (ps.map FluxMediaPlugin.name).Nodup →
       q.name = (ps.get ⟨i, hi⟩).name →
       ((PluginManager.empty F O R).registerAll (ps ++ [q])).2.getAll = ps.set i q) := by
  have hbase : ∀ ps : List (FluxMediaPlugin F O R),
      (ps.map FluxMediaPlugin.name).Nodup →
      ((PluginManager.empty F O R).registerAll ps).2.pluginCache
        = ps.map fun p => (p.name, p) := by
    intro ps hn
    have := registerAll_cache_fresh ps (PluginManager.empty F O R)
      (fun p _ => rfl) hn
    simpa [PluginManager.empty] using this
  have hgetAll : ∀ ps : List (FluxMediaPlugin F O R),
      (ps.map FluxMediaPlugin.name).Nodup →
      ((PluginManager.empty F O R).registerAll ps).2.getAll = ps := by
    intro ps hn
    rw [getAll_eq_values _ (registerAll_coherent ps (PluginManager.empty F O R)
      (fun _ => rfl)), hbase ps hn, List.map_map,
      show (Prod.snd ∘ fun p : FluxMediaPlugin F O R => (p.name, p)) = id from rfl,
      List.map_id]
  refine ⟨hgetAll, ?_, ?_⟩
  · intro ps file options pr hn h
    rw [runBeforeUpload_eq_list, hgetAll ps hn] at h ⊢
    exact runBeforeUploadList_ok_names ps file options pr h
  · intro ps i hi q hn hq
    rw [registerAll_append_one ps (PluginManager.empty F O R) q]
    set st1 := ((PluginManager.empty F O R).registerAll ps).2 with hst1
    have hcache : st1.pluginCache = ps.map fun p => (p.name, p) := hbase ps hn
    have hlen : i < st1.pluginCache.length := by
      rw [hcache]; simpa using hi
    have hfst : (st1.pluginCache.map Prod.fst).Nodup := by
      rw [hcache, List.map_map]
      simpa using hn
    have hkey : (st1.pluginCache.get ⟨i, hlen⟩).1 = q.name := by
      have h2 := List.get_of_eq hcache ⟨i, hlen⟩
      rw [List.get_map] at h2
      rw [h2]
      exact hq.symm
    have hsetcache : (st1.register q).2.pluginCache
        = st1.pluginCache.set i (q.name, q) := by
      have : (st1.register q).2.pluginCache = mapSet st1.pluginCache q.name q := rfl
      rw [this, mapSet_existing_eq_set st1.pluginCache i hlen q.name q hfst hkey]
    have hvacuous : (st1.register q).2.cacheInvalid = false →
        (st1.register q).2.orderedPlugins = (st1.register q).2.pluginCache.map Prod.snd := by
      intro hfalse
      exact absurd hfalse (by simp [register_cacheInvalid])
    rw [getAll_eq_values _ hvacuous, hsetcache, List.map_set, hcache, List.map_map,
      show (Prod.snd ∘ fun p : FluxMediaPlugin F O R => (p.name, p)) = id from rfl,
      List.map_id]

/-- Witness for C4: two concrete distinct-name plugins, a successful
beforeUpload run, and an override of the name "rename". -/
theorem registration_order_and_override_slot_witness :
    ((PluginManager.empty String String String).registerAll [wRename, wObserve]).2.getAll
      = [wRename, wObserve]
    ∧ ((((PluginManager.empty String String String).registerAll
          [wRename, wObserve]).2.runBeforeUpload "pic" "o").1.filterMap buName
        = ["rename", "observe"])
    ∧ ((PluginManager.empty String String String).registerAll
          ([wRename, wObserve] ++ [wRename2])).2.getAll = [wRename2, wObserve] := by
  refine ⟨?_, ?_, ?_⟩
  · exact (registration_order_and_override_slot).1 [wRename, wObserve] (by decide)
  · exact (registration_order_and_override_slot).2.1 [wRename, wObserve] "pic" "o"
      ("pic.webp", "o;renamed") (by decide) rfl
  · exact (registration_order_and_override_slot).2.2 [wRename, wObserve] 0 (by decide)
      wRename2 (by decide) rfl

theorem runAfterUpload_eq_list {F O R : Type} (st : PluginManager F O R) (result : R) :
    st.runAfterUpload result = runAfterUploadList st.getAll result := rfl

theorem runBeforeUploadList_events {F O R : Type} (ps : List (FluxMediaPlugin F O R)) :
    ∀ (f : F) (o : O), ∀ ev ∈ (runBeforeUploadList ps f o).1,
      ∃ n f2 o2, ev = Event.beforeUploadHook n f2 o2 := by
  induction ps with
  | nil => intro f o ev hmem; simp [runBeforeUploadList] at hmem
  | cons p ps ih =>
    intro f o ev hmem
    cases hb : p.hooks.beforeUpload with
    | none =>
      rw [runBeforeUploadList, hb] at hmem
      exact ih f o ev hmem
    | some hk =>
      cases hr : hk f o with
      | error t =>
        rw [runBeforeUploadList, hb] at hmem
        simp only [hr, List.mem_singleton] at hmem
        exact ⟨p.name, f, o, hmem⟩
      | ok res =>
        cases res with
        | none =>
          rw [runBeforeUploadList, hb] at hmem
          simp only [hr, List.mem_cons] at hmem
          rcases hmem with rfl | hmem2
          · exact ⟨p.name, f, o, rfl⟩
          · exact ih f o ev hmem2
        | some pair =>
          rw [runBeforeUploadList, hb] at hmem
          simp only [hr, List.mem_cons] at hmem
          rcases hmem with rfl | hmem2
          · exact ⟨p.name, f, o, rfl⟩
          · exact ih pair.1 pair.2 ev hmem2

theorem runAfterUploadList_events {F O R : Type} (ps : List (FluxMediaPlugin F O R)) :
    ∀ (result : R), ∀ ev ∈ (runAfterUploadList ps result).1,
      ∃ n r2, ev = Event.afterUploadHook n r2 := by
  induction ps with
  | nil => intro result ev hmem; simp [runAfterUploadList] at hmem
  | cons p ps ih =>
    intro result ev hmem
    cases hb : p.hooks.afterUpload with
    | none =>
      rw [runAfterUploadList, hb] at hmem
      exact ih result ev hmem
    | some hk =>
      cases hr : hk result with
      | error t =>
        rw [runAfterUploadList, hb] at hmem
        simp only [hr, List.mem_singleton] at hmem
        exact ⟨p.name, result, hmem⟩
      | ok r2 =>
        rw [runAfterUploadList, hb] at hmem
        simp only [hr, List.mem_cons] at hmem
        rcases hmem with rfl | hmem2
        · exact ⟨p.name, result, rfl⟩
        · exact ih r2 ev hmem2

theorem runOnErrorList_events {F O R : Type} (ps : List (FluxMediaPlugin F O R)) :
    ∀ (e : JSError) (f : F) (o : O), ∀ ev ∈ (runOnErrorList ps e f o).1,
      ∃ n e2 f2 o2, ev = Event.onErrorHook n e2 f2 o2 := by
  induction ps with
  | nil => intro e f o ev hmem; simp [runOnErrorList] at hmem
  | cons p ps ih =>
    intro e f o ev hmem
    cases hb : p.hooks.onError with
    | none =>
      rw [runOnErrorList, hb] at hmem
      exact ih e f o ev hmem
    | some hk =>
      cases hr : hk e f o with
      | error t =>
        rw [runOnErrorList, hb] at hmem
        simp only [hr, List.mem_singleton] at hmem
        exact ⟨p.name, e, f, o, hmem⟩
      | ok uu =>
        rw [runOnErrorList, hb] at hmem
        simp only [hr, List.mem_cons] at hmem
        rcases hmem with rfl | hmem2
        · exact ⟨p.name, e, f, o, rfl⟩
        · exact ih e f o ev hmem2

theorem countBeforeUpload_append {F O R : Type} (evs1 evs2 : List (Event F O R)) (nm : String) :
    countBeforeUpload (evs1 ++ evs2) nm
      = countBeforeUpload evs1 nm + countBeforeUpload evs2 nm := by
  unfold countBeforeUpload
  rw [List.filterMap_append, List.count_append]

theorem countBeforeUpload_zero_of_shape {F O R : Type} (evs : List (Event F O R)) (nm : String)
    (h : ∀ ev ∈ evs, buName ev = none) : countBeforeUpload evs nm = 0 := by
  unfold countBeforeUpload
  rw [List.filterMap_eq_nil.mpr h]
  rfl

theorem upload_ok_decomp {F O R Q : Type} (u : MediaUploader F O R Q) (f : F) (o : O) (r : R)
    (h : (u.upload f o).2 = .ok r) :
    ∃ f2 o2 r0,
      (runBeforeUploadList u.plugins.getAll f o).2 = Except.ok (f2, o2)
      ∧ (u.upload f o).1
        = (runBeforeUploadList u.plugins.getAll f o).1
            ++ .providerUpload f2 o2 :: (runAfterUploadList u.plugins.getAll r0).1 := by
  unfold MediaUploader.upload at h ⊢
  rw [runBeforeUpload_eq_list] at h
  cases hb : runBeforeUploadList u.plugins.getAll f o with
  | mk evs1 rb =>
    rw [hb] at h
    cases rb with
    | error t => exact absurd h (by simp)
    | ok pr =>
      obtain ⟨f2, o2⟩ := pr
      dsimp only at h ⊢
      cases hp : u.provider.upload f2 o2 with
      | error e =>
        rw [hp] at h
        dsimp only at h
        cases hoe : (u.plugins.runOnError (toJSError e) f2 o2).2 with
        | ok uu => rw [hoe] at h; exact absurd h (by simp)
        | error t2 => rw [hoe] at h; exact absurd h (by simp)
      | ok r0 =>
        rw [hp] at h
        dsimp only at h ⊢
        rw [runAfterUpload_eq_list] at h
        cases ha : runAfterUploadList u.plugins.getAll r0 with
        | mk evs2 ra =>
          rw [ha] at h
          cases ra with
          | error e =>
            dsimp only at h
            cases hoe : (u.plugins.runOnError (toJSError e) f2 o2).2 with
            | ok uu => rw [hoe] at h; exact absurd h (by simp)
            | error t2 => rw [hoe] at h; exact absurd h (by simp)
          | ok r2 =>
            refine ⟨f2, o2, r0, rfl, ?_⟩
            rw [runBeforeUpload_eq_list, hb]
            dsimp only
            rw [hp]
            dsimp only
            rw [runAfterUpload_eq_list, ha]

theorem upload_ok_countBU {F O R Q : Type} (u : MediaUploader F O R Q) (f : F) (o : O) (r : R)
    (h : (u.upload f o).2 = .ok r) (nm : String) :
    countBeforeUpload (u.upload f o).1 nm
      = ((u.plugins.getAll.filter fun p => p.hooks.beforeUpload.isSome).map
          FluxMediaPlugin.name).count nm := by
  obtain ⟨f2, o2, r0, hb, htr⟩ := upload_ok_decomp u f o r h
  rw [htr, countBeforeUpload_append]
  have h1 : (runBeforeUploadList u.plugins.getAll f o).1.filterMap buName
      = (u.plugins.getAll.filter fun p => p.hooks.beforeUpload.isSome).map
          FluxMediaPlugin.name :=
    runBeforeUploadList_ok_names _ f o (f2, o2) hb
  have h2 : countBeforeUpload (Event.providerUpload f2 o2
      :: (runAfterUploadList u.plugins.getAll r0).1) nm = 0 := by
    apply countBeforeUpload_zero_of_shape
    intro ev hmem
    rcases List.mem_cons.mp hmem with rfl | hmem2
    · rfl
    · obtain ⟨n, r2, hshape⟩ := runAfterUploadList_events u.plugins.getAll r0 ev hmem2
      rw [hshape]; rfl
  rw [h2]
  unfold countBeforeUpload
  rw [h1, Nat.add_zero]

theorem upload_no_batch {F O R Q : Type} (u : MediaUploader F O R Q) (f : F) (o : O) :
    ∀ ev ∈ (u.upload f o).1, isProviderUploadMultiple ev = false := by
  intro ev hmem
  unfold MediaUploader.upload at hmem
  rw [runBeforeUpload_eq_list] at hmem
  have hsh1 := runBeforeUploadList_events u.plugins.getAll f o
  cases hb : runBeforeUploadList u.plugins.getAll f o with
  | mk evs1 rb =>
    rw [hb] at hmem hsh1
    cases rb with
    | error t =>
      dsimp only at hmem hsh1
      obtain ⟨n, f2, o2, hshape⟩ := hsh1 ev hmem
      rw [hshape]; rfl
    | ok pr =>
      obtain ⟨f2, o2⟩ := pr
      dsimp only at hmem hsh1
      cases hp : u.provider.upload f2 o2 with
      | error e =>
        rw [hp] at hmem
        dsimp only at hmem
        rcases List.mem_append.mp hmem with hmem1 | hmem1
        · obtain ⟨n, f3, o3, hshape⟩ := hsh1 ev hmem1
          rw [hshape]; rfl
        · rcases List.mem_cons.mp hmem1 with rfl | hmem2
          · rfl
          · rw [runOnError_eq_list] at hmem2
            obtain ⟨n, e2, f3, o3, hshape⟩ :=
              runOnErrorList_events u.plugins.getAll (toJSError e) f2 o2 ev hmem2
            rw [hshape]; rfl
      | ok r0 =>
        rw [hp] at hmem
        dsimp only at hmem
        rw [runAfterUpload_eq_list] at hmem
        have hsh2 := runAfterUploadList_events u.plugins.getAll r0
        cases ha : runAfterUploadList u.plugins.getAll r0 with
        | mk evs2 ra =>
          rw [ha] at hmem hsh2
          cases ra with
          | ok r2 =>
            dsimp only at hmem hsh2
            rcases List.mem_append.mp hmem with hmem1 | hmem1
            · obtain ⟨n, f3, o3, hshape⟩ := hsh1 ev hmem1
              rw [hshape]; rfl
            · rcases List.mem_cons.mp hmem1 with rfl | hmem2
              · rfl
              · obtain ⟨n, r3, hshape⟩ := hsh2 ev hmem2
                rw [hshape]; rfl
          | error e =>
            dsimp only at hmem hsh2
            rcases List.mem_append.mp hmem with hmem1 | hmem1
            · obtain ⟨n, f3, o3, hshape⟩ := hsh1 ev hmem1
              rw [hshape]; rfl
            · rcases List.mem_cons.mp hmem1 with rfl | hmem2
              · rfl
              · rcases List.mem_append.mp hmem2 with hmem3 | hmem3
                · obtain ⟨n, r3, hshape⟩ := hsh2 ev hmem3
                  rw [hshape]; rfl
                · rw [runOnError_eq_list] at hmem3
                  obtain ⟨n, e2, f3, o3, hshape⟩ :=
                    runOnErrorList_events u.plugins.getAll (toJSError e) f2 o2 ev hmem3
                  rw [hshape]; rfl

theorem uploadMultiple_no_batch {F O R Q : Type} (u : MediaUploader F O R Q) (options : O) :
    ∀ files, ∀ ev ∈ (u.uploadMultiple files options).1,
      isProviderUploadMultiple ev = false := by
  intro files
  induction files with
  | nil => intro ev hmem; simp [MediaUploader.uploadMultiple] at hmem
  | cons f fs ih =>
    intro ev hmem
    rw [MediaUploader.uploadMultiple] at hmem
    have hnb := upload_no_batch u f options ev
    cases h1 : u.upload f options with
    | mk evs r =>
      rw [h1] at hmem hnb
      cases r with
      | error t =>
        dsimp only at hmem
        exact hnb hmem
      | ok r0 =>
        dsimp only at hmem
        cases h2 : u.uploadMultiple fs options with
        | mk evs2 r2 =>
          rw [h2] at hmem
          have ih2 := ih ev
          rw [h2] at ih2
          cases r2 with
          | ok rest =>
            dsimp only at hmem
            rcases List.mem_append.mp hmem with hmem1 | hmem1
            · exact hnb hmem1
            · exact ih2 hmem1
          | error t =>
            dsimp only at hmem
            rcases List.mem_append.mp hmem with hmem1 | hmem1
            · exact hnb hmem1
            · exact ih2 hmem1

theorem uploadMultiple_eq_mapM_result {F O R Q : Type} (u : MediaUploader F O R Q)
    (options : O) : ∀ files : List F,
    (u.uploadMultiple files options).2 = files.mapM fun f => (u.upload f options).2 := by
  intro files
  induction files with
  | nil => rfl
  | cons f fs ih =>
    rw [MediaUploader.uploadMultiple, List.mapM_cons]
    cases h1 : u.upload f options with
    | mk evs r =>
      dsimp only
      cases r with
      | error t => rfl
      | ok r0 =>
        dsimp only
        rw [← ih]
        cases h2 : u.uploadMultiple fs options with
        | mk evs2 r2 =>
          dsimp only
          cases r2 with
          | ok rest => rfl
          | error t => rfl

theorem uploadMultiple_trace_join {F O R Q : Type} (u : MediaUploader F O R Q)
    (options : O) : ∀ files : List F,
    (∀ f ∈ files, ∃ r, (u.upload f options).2 = .ok r) →
    (u.uploadMultiple files options).1
      = (files.map fun f => (u.upload f options).1).flatten := by
  intro files
  induction files with
  | nil => intro hall; rfl
  | cons f fs ih =>
    intro hall
    obtain ⟨r, hr⟩ := hall f (List.mem_cons_self f fs)
    rw [MediaUploader.uploadMultiple, List.map_cons, List.flatten_cons]
    cases h1 : u.upload f options with
    | mk evs rr =>
      rw [h1] at hr
      dsimp only at hr
      cases rr with
      | error t => exact absurd hr (by simp)
      | ok r0 =>
        dsimp only
        have ihh := ih fun g hg => hall g (List.mem_cons_of_mem f hg)
        cases h2 : u.uploadMultiple fs options with
        | mk evs2 r2 =>
          rw [h2] at ihh
          dsimp only at ihh
          cases r2 with
          | ok rest => dsimp only; rw [ihh]
          | error t => dsimp only; rw [ihh]

theorem uploadMultiple_countBU {F O R Q : Type} (u : MediaUploader F O R Q)
    (options : O) (nm : String) : ∀ files : List F,
    (∀ f ∈ files, ∃ r, (u.upload f options).2 = .ok r) →
    countBeforeUpload (u.uploadMultiple files options).1 nm
      = files.length
          * ((u.plugins.getAll.filter fun p => p.hooks.beforeUpload.isSome).map
              FluxMediaPlugin.name).count nm := by
  intro files
  induction files with
  | nil => intro hall; rw [List.length_nil, Nat.zero_mul]; rfl
  | cons f fs ih =>
    intro hall
    obtain ⟨r, hr⟩ := hall f (List.mem_cons_self f fs)
    have hone := upload_ok_countBU u f options r hr nm
    rw [MediaUploader.uploadMultiple]
    cases h1 : u.upload f options with
    | mk evs rr =>
      rw [h1] at hr hone
      dsimp only at hr
      cases rr with
      | error t => exact absurd hr (by simp)
      | ok r0 =>
        dsimp only
        have ihh := ih fun g hg => hall g (List.mem_cons_of_mem f hg)
        cases h2 : u.uploadMultiple fs options with
        | mk evs2 r2 =>
          rw [h2] at ihh
          dsimp only at ihh ⊢
          cases r2 with
          | ok rest =>
            dsimp only
            rw [countBeforeUpload_append, hone, ihh, List.length_cons]
            rw [Nat.succ_mul, Nat.add_comm]
          | error t =>
            dsimp only
            rw [countBeforeUpload_append, hone, ihh, List.length_cons]
            rw [Nat.succ_mul, Nat.add_comm]

theorem count_name_one {F O R : Type} (ps : List (FluxMediaPlugin F O R)) :
    ∀ p, (ps.map FluxMediaPlugin.name).Nodup → p ∈ ps →
      p.hooks.beforeUpload.isSome = true →
      ((ps.filter fun q => q.hooks.beforeUpload.isSome).map FluxMediaPlugin.name).count p.name
        = 1 := by
  induction ps with
  | nil => intro p _ hp; simp at hp
  | cons q ps ih =>
    intro p hn hp hbu
    simp only [List.map_cons, List.nodup_cons] at hn
    rcases List.mem_cons.mp hp with rfl | hp2
    · rw [List.filter_cons_of_pos (by simp [hbu]), List.map_cons, List.count_cons_self]
      have hzero : ((ps.filter fun q2 => q2.hooks.beforeUpload.isSome).map
          FluxMediaPlugin.name).count p.name = 0 := by
        rw [List.count_eq_zero]
        intro hmem
        obtain ⟨q2, hq2, he⟩ := List.mem_map.mp hmem
        exact hn.1 (he ▸ List.mem_map_of_mem FluxMediaPlugin.name
          (List.mem_of_mem_filter hq2))
      rw [hzero]
    · have hne : p.name ≠ q.name := by
        intro he
        exact hn.1 (he ▸ List.mem_map_of_mem FluxMediaPlugin.name hp2)
      by_cases hq : q.hooks.beforeUpload.isSome = true
      · rw [List.filter_cons_of_pos (by simp [hq]), List.map_cons,
          List.count_cons_of_ne hne]
        exact ih p hn.2 hp2 hbu
      · rw [List.filter_cons_of_neg (by simp [hq])]
        exact ih p hn.2 hp2 hbu

/-- Claim C5: uploadMultiple is the sequential per-element application of
the single-item upload path: its result is the in-order mapM of the
single-item upload over the files, its trace is the concatenation of the
per-file single-item traces when every element succeeds, the provider's
native batch uploadMultiple method is never invoked by this entry point,
and on a successful batch of n files every registered plugin's
beforeUpload hook fires exactly n times — once per file. -/
theorem uploadMultiple_per_item_pipeline {F O R Q : Type} (u : MediaUploader F O R Q)
    (files : List F) (options : O) :
    ((u.uploadMultiple files options).2 = files.mapM fun f => (u.upload f options).2)
    ∧ (∀ ev ∈ (u.uploadMultiple files options).1, isProviderUploadMultiple ev = false)
    ∧ ((∀ f ∈ files, ∃ r, (u.upload f options).2 = .ok r) →
        (u.uploadMultiple files options).1
          = (files.map fun f => (u.upload f options).1).flatten)
    ∧ ((∀ f ∈ files, ∃ r, (u.upload f options).2 = .ok r) →
        (u.plugins.getAll.map FluxMediaPlugin.name).Nodup →
        ∀ p ∈ u.plugins.getAll, p.hooks.beforeUpload.isSome = true →
          countBeforeUpload (u.uploadMultiple files options).1 p.name = files.length) := by
  refine ⟨uploadMultiple_eq_mapM_result u options files,
    uploadMultiple_no_batch u options files,
    uploadMultiple_trace_join u options files, ?_⟩
  intro hall hn p hp hbu
  rw [uploadMultiple_countBU u options p.name files hall,
    count_name_one u.plugins.getAll p hn hp hbu, Nat.mul_one]

/-- Witness for C5: a two-file batch on a succeeding provider with two
beforeUpload plugins — each hook fires exactly twice, the results arrive
in input order, and no batch provider call appears in the trace. -/
theorem uploadMultiple_per_item_pipeline_witness :
    (wOkUploader.uploadMultiple ["picA", "picB"] "o").2
      = .ok ["stored:picA.webp:o;renamed", "stored:picB.webp:o;renamed"]
    ∧ countBeforeUpload (wOkUploader.uploadMultiple ["picA", "picB"] "o").1 "rename" = 2
    ∧ (∀ ev ∈ (wOkUploader.uploadMultiple ["picA", "picB"] "o").1,
        isProviderUploadMultiple ev = false) := by
  refine ⟨rfl, ?_, (uploadMultiple_per_item_pipeline wOkUploader ["picA", "picB"] "o").2.1⟩
  have hall : ∀ f ∈ (["picA", "picB"] : List String),
      ∃ r, (wOkUploader.upload f "o").2 = .ok r := by
    intro f hf
    rcases List.mem_cons.mp hf with rfl | hf2
    · exact ⟨"stored:picA.webp:o;renamed", rfl⟩
    rcases List.mem_cons.mp hf2 with rfl | hf3
    · exact ⟨"stored:picB.webp:o;renamed", rfl⟩
    simp at hf3
  have hmem : wRename ∈ wOkUploader.plugins.getAll := by
    rw [show wOkUploader.plugins.getAll = [wRename, wObserve] from rfl]
    exact List.mem_cons_self _ _
  exact (uploadMultiple_per_item_pipeline wOkUploader ["picA", "picB"] "o").2.2.2
    hall (by decide) wRename hmem rfl

end FluxMedia
